import Mathlib

/-!
Verification development for the COASTGUARD wave-analysis module
(`Toolshed/Waves.py`).  The Python source is shallowly embedded below:
pure numeric code becomes Lean functions over `ℚ` (exact rational
arithmetic stands in for IEEE floats wherever the computation is a field
computation; transcendental formulas use `ℝ`), fallible code returns
`Option`/`Except`, and NumPy/Python behaviours (modulo, slicing, list
min, percentile) are reproduced exactly, including operator precedence.
-/

/-- Python's `%` operator on numbers (also NumPy's): `a % n = a - n * floor (a / n)`,
so for a positive divisor the result lies in `[0, n)`. -/
def pymod (a n : ℚ) : ℚ := a - n * ((⌊a / n⌋ : ℤ) : ℚ)

/-- The wrapped signed angular difference used throughout the spec:
`wrapAngle x = ((x + 180) mod 360) - 180`, which lands in `[-180, 180)`
(Python modulo with positive divisor). -/
def wrapAngle (x : ℚ) : ℚ := pymod (x + 180) 360 - 180

/-! ### 4.3 CalcAlpha (Waves.py lines 525-554) -/

/-- Wave-to-shore angle as the specification words it (spec 4.3):
`alpha = ((direction - shoreAngle) + 180) mod 360 - 180`. -/
def specAlphaFormula (direction shoreAngle : ℚ) : ℚ :=
  wrapAngle (direction - shoreAngle)

/-- Shallow embedding of `CalcAlpha` (Waves.py lines 525-554).
`WaveDir` holds one optional direction time series per transect
(`none` models an all-NaN series, for which the source returns a scalar
NaN, modelled as `none`).  The per-observation expression in the source
is `(Dir - ShoreAngle[Tr]) + 180 % 360-180`; Python's `%` binds tighter
than `+`/`-`, so it parses as `(Dir - ShoreAngle[Tr]) + (180 % 360) - 180`
and that is what is embedded here. -/
def CalcAlpha (WaveDir : List (Option (List ℚ))) (ShoreAngle : List ℚ) (Tr : ℕ) :
    Option (List ℚ) :=
  match WaveDir.get? Tr, ShoreAngle.get? Tr with
  | some (some dirs), some sa =>
      some (dirs.map (fun Dir => (Dir - sa) + pymod 180 360 - 180))
  | _, _ => none

/-! ### 4.5 Stability index (Waves.py lines 413-417 and 484-489) -/

/-- Numerator of the stability index: `sum(mu_i * TimeStep)` over the series. -/
def stabilityNum (mu : List ℚ) (timeStep : ℚ) : ℚ :=
  (mu.map (fun m => m * timeStep)).sum

/-- Denominator of the stability index: `sum(|mu_i| * TimeStep)` over the series. -/
def stabilityDenom (mu : List ℚ) (timeStep : ℚ) : ℚ :=
  (mu.map (fun m => |m| * timeStep)).sum

/-- Stability computation of `WaveClimateSimple` (Waves.py lines 484-489):
`Stabil_num / Stabil_denom if Stabil_denom != 0 else 0`. -/
def WaveStabilitySimple (mu : List ℚ) (timeStep : ℚ) : ℚ :=
  if stabilityDenom mu timeStep ≠ 0 then
    stabilityNum mu timeStep / stabilityDenom mu timeStep
  else 0

/-- Stability computation of the degree-based `WaveClimate` (Waves.py lines
413-417): an unguarded float division `np.sum(...) / np.sum(...)`.  When the
denominator is zero the numerator is zero as well (the time step is
nonnegative), so IEEE arithmetic yields NaN; the NaN outcome is modelled as
`none`. -/
def WaveStabilityOld (mu : List ℚ) (timeStep : ℚ) : Option ℚ :=
  if stabilityDenom mu timeStep = 0 then none
  else some (stabilityNum mu timeStep / stabilityDenom mu timeStep)

/-! ### 4.8 CalcStorms (Waves.py lines 806-832) -/

/-- NumPy's `np.percentile(v, 95)` with the default linear-interpolation
method: on the sorted values, the virtual index is `0.95 * (n - 1)` and the
result interpolates linearly between the neighbouring order statistics. -/
def percentile95 (l : List ℚ) : ℚ :=
  let s := l.insertionSort (· ≤ ·)
  let pos : ℚ := (95 / 100) * ((l.length : ℚ) - 1)
  let i : ℕ := (⌊pos⌋).toNat
  let frac : ℚ := pos - ((⌊pos⌋ : ℤ) : ℚ)
  if i + 1 < s.length then s.getD i 0 + frac * (s.getD (i + 1) 0 - s.getD i 0)
  else s.getD i 0

/-- The height time series of one grid cell, read down the time axis.
The two spatial axes of the 3-D grid are flattened into one cell index,
which is faithful because `np.percentile(·, 95, axis=0)` and the comparison
`SigWaveHeight > pct` both act cellwise. -/
def cellSeries (T C : ℕ) (H : Fin T → Fin C → ℚ) (c : Fin C) : List ℚ :=
  (List.finRange T).map (fun t => H t c)

/-- Shallow embedding of `CalcStorms` (Waves.py lines 806-832):
`pct = np.percentile(H, 95, axis=0)`, `StormMask = H > pct`,
`StormEvents = np.where(StormMask, 1, 0)`.  The output indexing domain is
the input's, so the shapes agree by construction. -/
def CalcStorms (T C : ℕ) (H : Fin T → Fin C → ℚ) : Fin T → Fin C → ℕ :=
  fun t c => if percentile95 (cellSeries T C H c) < H t c then 1 else 0

/-! ### Helper lemmas -/

/-- Evaluation rule for `pymod`: if `a = n * k + r` with `0 ≤ r < n` then
`pymod a n = r`. -/
lemma pymod_eq (a n r : ℚ) (k : ℤ) (hn : 0 < n) (ha : a = n * k + r)
    (h0 : 0 ≤ r) (h1 : r < n) : pymod a n = r := by
  have hdiv : a / n = k + r / n := by rw [ha]; field_simp; ring
  have hfl : ⌊a / n⌋ = k := by
    rw [hdiv, Int.floor_eq_iff]
    constructor
    · have : 0 ≤ r / n := div_nonneg h0 hn.le
      linarith
    · have : r / n < 1 := (div_lt_one hn).mpr h1
      linarith
  rw [pymod, hfl, ha]
  ring

lemma stabilityDenom_nonneg (mu : List ℚ) (ts : ℚ) (hts : 0 ≤ ts) :
    0 ≤ stabilityDenom mu ts := by
  induction mu with
  | nil => simp [stabilityDenom]
  | cons m l ih =>
      simp only [stabilityDenom, List.map_cons, List.sum_cons] at ih ⊢
      have : 0 ≤ |m| * ts := mul_nonneg (abs_nonneg m) hts
      linarith

lemma abs_stabilityNum_le (mu : List ℚ) (ts : ℚ) (hts : 0 ≤ ts) :
    |stabilityNum mu ts| ≤ stabilityDenom mu ts := by
  induction mu with
  | nil => simp [stabilityNum, stabilityDenom]
  | cons m l ih =>
      simp only [stabilityNum, stabilityDenom, List.map_cons, List.sum_cons] at ih ⊢
      calc |m * ts + (l.map (fun x => x * ts)).sum|
          ≤ |m * ts| + |(l.map (fun x => x * ts)).sum| := abs_add _ _
        _ ≤ |m| * ts + (l.map (fun x => |x| * ts)).sum := by
            rw [abs_mul, abs_of_nonneg hts]
            exact add_le_add_left ih _

/-! ### C1 theorem -/

/-- C1: the claim states that `CalcAlpha` computes
`((direction - shoreAngle) + 180) mod 360 - 180 ∈ (-180, 180]`, giving `-170`
at shore angle `10` and direction `200`.  The spec formula indeed gives `-170`
there, but the source expression `(Dir - ShoreAngle[Tr]) + 180 % 360-180`
parses as `(Dir - ShoreAngle[Tr]) + (180 % 360) - 180 = Dir - ShoreAngle[Tr]`
by Python operator precedence, so `CalcAlpha` returns the unwrapped `190`,
which also violates the claimed range `(-180, 180]`.  The inline comment in
the source ("modulo ensures value returned is same sign as dividend") shows
the wrap was intended: the code, not the claim, is at fault. -/
theorem C1_calcAlpha_unwrapped :
    specAlphaFormula 200 10 = -170 ∧
    CalcAlpha [some [200]] [10] 0 = some [190] ∧
    ¬ ((190 : ℚ) ≤ 180) := by
  have h370 : pymod 370 360 = 10 :=
    pymod_eq 370 360 10 1 (by norm_num) (by norm_num) (by norm_num) (by norm_num)
  have h180 : pymod 180 360 = 180 :=
    pymod_eq 180 360 180 0 (by norm_num) (by norm_num) (by norm_num) (by norm_num)
  refine ⟨?_, ?_, by norm_num⟩
  · rw [specAlphaFormula, wrapAngle, show (200 : ℚ) - 10 + 180 = 370 by norm_num, h370]
    norm_num
  · simp only [CalcAlpha, List.get?, List.map]
    rw [h180]
    norm_num

/-! ### C3 theorems -/

/-- C3 (amended): for every series of per-observation `mu` values and
nonnegative time step, the radian-based default `WaveClimateSimple` returns a
stability index in `[-1, 1]`, returning exactly `0` when the denominator
`sum(|mu| * dt)` vanishes (e.g. all `mu` zero); the degree-based `WaveClimate`
variant also stays in `[-1, 1]` whenever it returns a number, but its division
is unguarded, so a vanishing denominator yields NaN (modelled `none`), not
`0`. -/
theorem C3_stability_bounds (mu : List ℚ) (ts : ℚ) (hts : 0 ≤ ts) :
    (-1 ≤ WaveStabilitySimple mu ts ∧ WaveStabilitySimple mu ts ≤ 1) ∧
    (stabilityDenom mu ts = 0 →
      WaveStabilitySimple mu ts = 0 ∧ WaveStabilityOld mu ts = none) ∧
    (∀ r, WaveStabilityOld mu ts = some r → -1 ≤ r ∧ r ≤ 1) := by
  by_cases hd : stabilityDenom mu ts = 0
  · refine ⟨?_, fun _ => ⟨?_, ?_⟩, ?_⟩
    · simp [WaveStabilitySimple, hd]
    · simp [WaveStabilitySimple, hd]
    · simp [WaveStabilityOld, hd]
    · intro r hr
      simp [WaveStabilityOld, hd] at hr
  · have hpos : 0 < stabilityDenom mu ts :=
      lt_of_le_of_ne (stabilityDenom_nonneg mu ts hts) (Ne.symm hd)
    have habs := abs_le.mp (abs_stabilityNum_le mu ts hts)
    have hlow : -1 ≤ stabilityNum mu ts / stabilityDenom mu ts := by
      rw [le_div_iff₀ hpos]
      linarith [habs.1]
    have fhigh : stabilityNum mu ts / stabilityDenom mu ts ≤ 1 :=
      (div_le_one hpos).mpr habs.2
    refine ⟨?_, fun h => absurd h hd, ?_⟩
    · simp only [WaveStabilitySimple, if_pos hd]
      exact ⟨hlow, fhigh⟩
    · intro r hr
      simp only [WaveStabilityOld, if_neg hd, Option.some.injEq] at hr
      rw [← hr]
      exact ⟨hlow, fhigh⟩

/-- Witness for C3: a concrete mixed series stays inside `[-1, 1]`. -/
theorem C3_stability_bounds_witness :
    -1 ≤ WaveStabilitySimple [1, -2] 3600 ∧ WaveStabilitySimple [1, -2] 3600 ≤ 1 :=
  (C3_stability_bounds [1, -2] 3600 (by norm_num)).1

/-- Counterexample for C3 as stated: for the all-zero `mu` series the
degree-based `WaveClimate` variant divides by zero and produces NaN
(modelled `none`), not the claimed stability `0`. -/
theorem C3_old_variant_nan :
    WaveStabilityOld [0, 0, 0] 3600 = none := by
  simp [WaveStabilityOld, stabilityDenom]

/-! ### C4 theorems -/

/-- C4 (amended): each storm-grid entry is `1` exactly when that cell's
height value strictly exceeds the 95th percentile of that cell's own time
series (and `0` otherwise, so the claimed "at or above" must read "strictly
above"); the flag depends only on the cell's own column, never on other
cells (the percentile is not pooled across the grid), and the output is
indexed exactly like the input grid. -/
theorem C4_storms_strict (T C : ℕ) (H H' : Fin T → Fin C → ℚ) (t : Fin T) (c : Fin C) :
    (CalcStorms T C H t c = 1 ↔ percentile95 (cellSeries T C H c) < H t c) ∧
    (CalcStorms T C H t c = 0 ↔ ¬ percentile95 (cellSeries T C H c) < H t c) ∧
    ((∀ s, H s c = H' s c) → CalcStorms T C H t c = CalcStorms T C H' t c) := by
  refine ⟨?_, ?_, ?_⟩
  · unfold CalcStorms
    split <;> simp_all
  · unfold CalcStorms
    split <;> simp_all
  · intro hcol
    have hcell : cellSeries T C H c = cellSeries T C H' c :=
      List.map_congr_left fun s _ => hcol s
    unfold CalcStorms
    rw [hcell, hcol t]

lemma percentile95_single : percentile95 [(5 : ℚ)] = 5 := by
  simp only [percentile95, List.insertionSort, List.orderedInsert, List.length_cons,
    List.length_nil]
  norm_num

lemma percentile95_pair : percentile95 [(10 : ℚ), 0] = 19 / 2 := by
  have hfl : ⌊(19 / 20 : ℚ)⌋ = 0 := by
    rw [Int.floor_eq_iff]
    norm_num
  simp only [percentile95, List.insertionSort, List.orderedInsert, List.length_cons,
    List.length_nil]
  norm_num [hfl]

/-- Counterexample for C4 as stated: in a 1x1x1 grid holding the single value
`5`, the cell's 95th percentile is `5` itself, so the claimed "at or above"
rule would flag the entry `1`; `CalcStorms` uses a strict comparison
(`SigWaveHeight > pct`) and returns `0`. -/
theorem C4_storms_counterexample :
    percentile95 (cellSeries 1 1 (fun _ _ => (5 : ℚ)) 0) = 5 ∧
    CalcStorms 1 1 (fun _ _ => (5 : ℚ)) 0 0 = 0 := by
  have hc : cellSeries 1 1 (fun _ _ => (5 : ℚ)) 0 = [5] := rfl
  refine ⟨by rw [hc, percentile95_single], ?_⟩
  simp [CalcStorms, hc, percentile95_single]

/-- Witness for C4: a 2-step series `[10, 0]` has 95th percentile `9.5`, so
the entry `10` is flagged `1`; replacing the grid by a pointwise-equal one
leaves the flag unchanged. -/
theorem C4_storms_strict_witness :
    CalcStorms 2 1 (fun t _ => if t = 0 then (10 : ℚ) else 0) 0 0 = 1 ∧
    CalcStorms 2 1 (fun t _ => if t = 0 then (10 : ℚ) else 0) 0 0 =
      CalcStorms 2 1 (fun t _ => (if t = 0 then (1 : ℚ) else 0) * 10) 0 0 := by
  have hc : cellSeries 2 1 (fun t _ => if t = 0 then (10 : ℚ) else 0) 0 = [10, 0] := rfl
  refine ⟨(C4_storms_strict 2 1 _ (fun _ _ => 0) 0 0).1.mpr ?_, ?_⟩
  · show percentile95 (cellSeries 2 1 _ 0) < _
    rw [hc, percentile95_pair]
    norm_num
  · refine (C4_storms_strict 2 1 _ _ 0 0).2.2 ?_
    intro s
    fin_cases s <;> norm_num

/-! ### 4.1 Wave data acquisition (Waves.py lines 27-114) -/

/-- Day number of a proleptic Gregorian date (days since 1970-01-01), the
standard civil-calendar conversion; models the date arithmetic done by
Python's `datetime`/`timedelta` in `GetHindcastWaveData`. -/
def daysFromCivil (y : ℤ) (m d : ℕ) : ℤ :=
  let y2 : ℤ := if m ≤ 2 then y - 1 else y
  let era : ℤ := (if 0 ≤ y2 then y2 else y2 - 399) / 400
  let yoe : ℤ := y2 - era * 400
  let mp : ℕ := (m + 9) % 12
  let doy : ℤ := ((153 * mp + 2) / 5 : ℕ) + d - 1
  let doe : ℤ := yoe * 365 + yoe / 4 - yoe / 100 + doy
  era * 146097 + doe - 719468

/-- Inverse of `daysFromCivil`: the civil date `(year, month, day)` of a day
number. -/
def civilFromDays (z0 : ℤ) : ℤ × ℕ × ℕ :=
  let z : ℤ := z0 + 719468
  let era : ℤ := (if 0 ≤ z then z else z - 146096) / 146097
  let doe : ℤ := z - era * 146097
  let yoe : ℤ := (doe - doe / 1460 + doe / 36524 - doe / 146096) / 365
  let y : ℤ := yoe + era * 400
  let doy : ℤ := doe - (365 * yoe + yoe / 4 - yoe / 100)
  let mp : ℤ := (5 * doy + 2) / 153
  let d : ℤ := doy - (153 * mp + 2) / 5 + 1
  let m : ℤ := if mp < 10 then mp + 3 else mp - 9
  (if m ≤ 2 then y + 1 else y, m.toNat, d.toNat)

/-- Value of a string of decimal digits. -/
def digitsToNat (cs : List Char) : ℕ :=
  cs.foldl (fun acc c => 10 * acc + (c.toNat - 48)) 0

/-- Parse a `YYYY-MM-DD` string, as `datetime.strptime(s, "%Y-%m-%d")` does
for the well-formed date strings this module handles. -/
def parseCivil (s : String) : ℤ × ℕ × ℕ :=
  let cs := s.data
  ((digitsToNat (cs.take 4) : ℕ), digitsToNat ((cs.drop 5).take 2),
    digitsToNat ((cs.drop 8).take 2))

/-- Zero-padded two-digit field of `strftime`. -/
def pad2 (n : ℕ) : String := if n < 10 then "0" ++ toString n else toString n

/-- Zero-padded four-digit year field of `strftime`. -/
def pad4 (n : ℕ) : String :=
  if n < 10 then "000" ++ toString n
  else if n < 100 then "00" ++ toString n
  else if n < 1000 then "0" ++ toString n
  else toString n

/-- Format a civil date as the 10-character `YYYY-MM-DD` form, i.e. the
`[:10]` truncation of `strftime("%Y-%m-%d %H:%M:%S")` used by the source. -/
def formatCivil : ℤ × ℕ × ℕ → String
  | (y, m, d) => pad4 y.toNat ++ "-" ++ pad2 m ++ "-" ++ pad2 d

/-- Parse a date string, shift it by `k` days and format it back: the
`strftime(strptime(s) + timedelta(days=k))[:10]` pipeline of the source.
`k = 0` is the bare parse/format round trip applied to `DateMax`. -/
def dateShift (s : String) (k : ℤ) : String :=
  let c := parseCivil s
  formatCivil (civilFromDays (daysFromCivil c.1 c.2.1 c.2.2 + k))

/-- Python string `<` (code-point lexicographic comparison). -/
def strLtB : List Char → List Char → Bool
  | [], [] => false
  | [], _ :: _ => true
  | _ :: _, [] => false
  | a :: as, b :: bs =>
      if a.toNat < b.toNat then true
      else if b.toNat < a.toNat then false
      else strLtB as bs

/-- Python string `<` on `String`. -/
def pyStrLt (a b : String) : Bool := strLtB a.data b.data

/-- Python's builtin `min` over a list of strings (`none` on the empty list,
where Python raises). -/
def pyMin : List String → Option String
  | [] => none
  | s :: rest => some (rest.foldl (fun cur x => if pyStrLt x cur then x else cur) s)

/-- Python's builtin `max` over a list of strings (`none` on the empty list,
where Python raises). -/
def pyMax : List String → Option String
  | [] => none
  | s :: rest => some (rest.foldl (fun cur x => if pyStrLt cur x then x else cur) s)

/-- The caller-supplied settings fields used by the acquisition routines:
`settings['inputs']['filepath']` and `settings['inputs']['sitename']`. -/
structure WaveSettings where
  filepath : String
  sitename : String

/-- Python `os.path.join` for the relative components used here. -/
def joinPath (a b : String) : String := a ++ "/" ++ b

/-- Result of one acquisition call: the returned `(WavePath, WaveOutFile)`
pair, whether the external downloader was dispatched, and the filesystem
contents after the call. -/
structure AcqResult where
  wavePath : String
  waveOutFile : String
  dispatched : Bool
  files : List String
  deriving DecidableEq

/-- Modelled from the spec: `Toolbox.CMSDownload` lives in the sibling
Toolbox library, which is not part of this file (spec 6 lists "a
download-dispatch routine taking a structured command description" among the
external capabilities).  Per spec 4.1 the dispatcher transfers the requested
file, so its filesystem effect is modelled as adding
`WavePath/WaveOutFile` to the set of existing files. -/
def CMSDownload (files : List String) (wavePath waveOutFile : String) : List String :=
  joinPath wavePath waveOutFile :: files

/-- The hindcast output filename (Waves.py lines 48-53):
`sitename + '_' + DateMin[:10] + '_' + DateMax[:10] + '_waves.nc'` where
`DateMin` is `min(output['dates'])` minus 90 days and `DateMax` is
`max(output['dates'])`.  `none` models the `min()`/`max()` failure on an
empty date list. -/
def GetHindcastWaveFileName (sitename : String) (dates : List String) : Option String :=
  match pyMin dates, pyMax dates with
  | some dmin, some dmax =>
      some (sitename ++ "_" ++ dateShift dmin (-90) ++ "_" ++ dateShift dmax 0 ++ "_waves.nc")
  | _, _ => none

/-- The forecast output filename (Waves.py lines 98-103): prefixed
`MetO-NWS-WAV-hi_`, with the date window padded by one day on each side. -/
def GetForecastWaveFileName (sitename : String) (dates : List String) : Option String :=
  match pyMin dates, pyMax dates with
  | some dmin, some dmax =>
      some ("MetO-NWS-WAV-hi_" ++ sitename ++ "_" ++ dateShift dmin (-1) ++ "_" ++
        dateShift dmax 1 ++ "_waves.nc")
  | _, _ => none

/-- Shallow embedding of `GetHindcastWaveData` (Waves.py lines 27-70): the
filesystem is threaded explicitly as the list of existing files;
`os.path.isfile` becomes list membership; the bounding-box padding does not
influence the returned path/filename or the skip decision and is omitted
from the state. -/
def GetHindcastWaveData (settings : WaveSettings) (dates : List String)
    (files : List String) : Option AcqResult :=
  match GetHindcastWaveFileName settings.sitename dates with
  | none => none
  | some waveOutFile =>
      if joinPath (joinPath settings.filepath "tides") waveOutFile ∈ files then
        some ⟨joinPath settings.filepath "tides", waveOutFile, false, files⟩
      else
        some ⟨joinPath settings.filepath "tides", waveOutFile, true,
          CMSDownload files (joinPath settings.filepath "tides") waveOutFile⟩

/-- Shallow embedding of `GetForecastWaveData` (Waves.py lines 74-114),
mirroring `GetHindcastWaveData` with the forecast filename. -/
def GetForecastWaveData (settings : WaveSettings) (dates : List String)
    (files : List String) : Option AcqResult :=
  match GetForecastWaveFileName settings.sitename dates with
  | none => none
  | some waveOutFile =>
      if joinPath (joinPath settings.filepath "tides") waveOutFile ∈ files then
        some ⟨joinPath settings.filepath "tides", waveOutFile, false, files⟩
      else
        some ⟨joinPath settings.filepath "tides", waveOutFile, true,
          CMSDownload files (joinPath settings.filepath "tides") waveOutFile⟩

/-! ### C6 theorem -/

/-- C6: for sitename `Site1` and an observation-date list with minimum
`2020-01-01` and maximum `2020-03-01`, the hindcast filename is exactly
`Site1_2019-10-03_2020-03-01_waves.nc` (start = minimum minus 90 days, both
dates truncated to 10-character `YYYY-MM-DD`). -/
theorem C6_hindcast_filename (dates : List String)
    (hmin : pyMin dates = some "2020-01-01") (hmax : pyMax dates = some "2020-03-01") :
    GetHindcastWaveFileName "Site1" dates =
      some "Site1_2019-10-03_2020-03-01_waves.nc" := by
  unfold GetHindcastWaveFileName
  rw [hmin, hmax]
  decide

/-- Witness for C6 at a concrete date list. -/
theorem C6_hindcast_filename_witness :
    GetHindcastWaveFileName "Site1" ["2020-03-01", "2020-01-01"] =
      some "Site1_2019-10-03_2020-03-01_waves.nc" :=
  C6_hindcast_filename ["2020-03-01", "2020-01-01"] (by decide) (by decide)

/-! ### C5 theorem -/

/-- C5: for both acquisition entry points, if the file with the computed
name already exists under `<filepath>/tides` the call dispatches no download
and leaves the filesystem untouched, the returned `(path, filename)` pair is
the same one a downloading call returns, and a second call with identical
inputs after any first call finds the file present and performs no
transfer. -/
theorem C5_acquisition_idempotent (settings : WaveSettings)
    (dates files : List String) (r : AcqResult) :
    (GetHindcastWaveData settings dates files = some r →
      ((joinPath r.wavePath r.waveOutFile ∈ files →
          r.dispatched = false ∧ r.files = files) ∧
        GetHindcastWaveData settings dates r.files =
          some ⟨r.wavePath, r.waveOutFile, false, r.files⟩)) ∧
    (GetForecastWaveData settings dates files = some r →
      ((joinPath r.wavePath r.waveOutFile ∈ files →
          r.dispatched = false ∧ r.files = files) ∧
        GetForecastWaveData settings dates r.files =
          some ⟨r.wavePath, r.waveOutFile, false, r.files⟩)) := by
  constructor
  · intro h
    unfold GetHindcastWaveData at h
    cases hname : GetHindcastWaveFileName settings.sitename dates with
    | none => rw [hname] at h; exact absurd h (by simp)
    | some f =>
        rw [hname] at h
        simp only at h
        by_cases hmem : joinPath (joinPath settings.filepath "tides") f ∈ files
        · rw [if_pos hmem] at h
          obtain rfl := Option.some.inj h
          refine ⟨fun _ => ⟨rfl, rfl⟩, ?_⟩
          show GetHindcastWaveData settings dates files =
            some ⟨joinPath settings.filepath "tides", f, false, files⟩
          unfold GetHindcastWaveData
          rw [hname]
          simp only
          rw [if_pos hmem]
        · rw [if_neg hmem] at h
          obtain rfl := Option.some.inj h
          refine ⟨fun hmem2 => absurd hmem2 hmem, ?_⟩
          show GetHindcastWaveData settings dates
              (CMSDownload files (joinPath settings.filepath "tides") f) =
            some ⟨joinPath settings.filepath "tides", f, false,
              CMSDownload files (joinPath settings.filepath "tides") f⟩
          unfold GetHindcastWaveData
          rw [hname]
          simp only
          have hm : joinPath (joinPath settings.filepath "tides") f ∈
              CMSDownload files (joinPath settings.filepath "tides") f :=
            List.mem_cons_self _ _
          rw [if_pos hm]
  · intro h
    unfold GetForecastWaveData at h
    cases hname : GetForecastWaveFileName settings.sitename dates with
    | none => rw [hname] at h; exact absurd h (by simp)
    | some f =>
        rw [hname] at h
        simp only at h
        by_cases hmem : joinPath (joinPath settings.filepath "tides") f ∈ files
        · rw [if_pos hmem] at h
          obtain rfl := Option.some.inj h
          refine ⟨fun _ => ⟨rfl, rfl⟩, ?_⟩
          show GetForecastWaveData settings dates files =
            some ⟨joinPath settings.filepath "tides", f, false, files⟩
          unfold GetForecastWaveData
          rw [hname]
          simp only
          rw [if_pos hmem]
        · rw [if_neg hmem] at h
          obtain rfl := Option.some.inj h
          refine ⟨fun hmem2 => absurd hmem2 hmem, ?_⟩
          show GetForecastWaveData settings dates
              (CMSDownload files (joinPath settings.filepath "tides") f) =
            some ⟨joinPath settings.filepath "tides", f, false,
              CMSDownload files (joinPath settings.filepath "tides") f⟩
          unfold GetForecastWaveData
          rw [hname]
          simp only
          have hm : joinPath (joinPath settings.filepath "tides") f ∈
              CMSDownload files (joinPath settings.filepath "tides") f :=
            List.mem_cons_self _ _
          rw [if_pos hm]

/-- Witness for C5: after a first (downloading) hindcast call on an empty
filesystem, the second identical call skips the transfer and returns the
same path and filename. -/
theorem C5_acquisition_idempotent_witness :
    GetHindcastWaveData ⟨"data", "Site1"⟩ ["2020-01-01", "2020-03-01"]
        ["data/tides/Site1_2019-10-03_2020-03-01_waves.nc"] =
      some ⟨"data/tides", "Site1_2019-10-03_2020-03-01_waves.nc", false,
        ["data/tides/Site1_2019-10-03_2020-03-01_waves.nc"]⟩ :=
  ((C5_acquisition_idempotent ⟨"data", "Site1"⟩ ["2020-01-01", "2020-03-01"] []
      ⟨"data/tides", "Site1_2019-10-03_2020-03-01_waves.nc", true,
        ["data/tides/Site1_2019-10-03_2020-03-01_waves.nc"]⟩).1 (by decide)).2

/-! ### 4.7 CalcRunup (Waves.py lines 739-803) -/

/-- The two supported values of the `Model` selector of `CalcRunup`. -/
inductive RunupModel
  | senechal
  | stockdon

/-- The Senechal et al. (2011) runup formula applied to one wave height:
`runup = 2.14 * np.tanh(0.4 * Hs)` (Waves.py line 792). -/
noncomputable def senechalRunup (hs : ℝ) : ℝ := 2.14 * Real.tanh (0.4 * hs)

/-- The Stockdon et al. (2006) runup formula applied to one wave
height/period pair (Waves.py lines 794-795). -/
noncomputable def stockdonRunup (hs tp : ℝ) : ℝ :=
  0.043 * (hs * ((9.8 * tp ^ 2) / (2 * Real.pi))) ^ ((0.5 : ℝ) : ℝ)

/-- Shallow embedding of `CalcRunup` (Waves.py lines 739-803): one optional
runup list per transect; a transect whose wave-height entry is not a list
(`none`, the missing marker) propagates `none`.  `WaveTp` is indexed in
parallel for the Stockdon branch (the sampler guarantees the parallel-list
invariant; Python would raise on its violation, which is not modelled). -/
noncomputable def CalcRunup (WaveHs : List (Option (List ℝ))) (WaveTp : List (List ℝ))
    (Model : RunupModel) : List (Option (List ℝ)) :=
  (List.range WaveHs.length).map (fun Tr =>
    match WaveHs.getD Tr none with
    | none => none
    | some hsList =>
        some ((List.range hsList.length).map (fun i =>
          match Model with
          | .senechal => senechalRunup (hsList.getD i 0)
          | .stockdon => stockdonRunup (hsList.getD i 0) ((WaveTp.getD Tr []).getD i 0))))

/-! ### C9 theorem -/

/-- C9: with the default Senechal model, `CalcRunup` maps each height `Hs`
to `2.14 * tanh(0.4 * Hs)`, and that map is strictly increasing on positive
heights. -/
theorem C9_runup_senechal_monotone (hs1 hs2 : ℝ) (_hpos : 0 < hs1) (h12 : hs1 < hs2) :
    CalcRunup [some [hs1]] [] RunupModel.senechal = [some [senechalRunup hs1]] ∧
    senechalRunup hs1 < senechalRunup hs2 := by
  constructor
  · simp [CalcRunup, List.range_succ]
  · have htanh : Real.tanh (0.4 * hs1) < Real.tanh (0.4 * hs2) := by
      have harg : (0.4 : ℝ) * hs1 < 0.4 * hs2 := by linarith
      have hmono : StrictMono Real.tanh := by
        intro x y hxy
        rw [Real.tanh_eq_sinh_div_cosh, Real.tanh_eq_sinh_div_cosh,
          div_lt_div_iff₀ (Real.cosh_pos x) (Real.cosh_pos y)]
        have h := Real.sinh_pos_iff.mpr (sub_pos.mpr hxy)
        rw [Real.sinh_sub] at h
        linarith
      exact hmono harg
    rw [senechalRunup, senechalRunup]
    linarith

/-- Witness for C9 at heights `1 < 2`. -/
theorem C9_runup_senechal_monotone_witness :
    CalcRunup [some [(1 : ℝ)]] [] RunupModel.senechal = [some [senechalRunup 1]] ∧
    senechalRunup 1 < senechalRunup 2 :=
  C9_runup_senechal_monotone 1 2 (by norm_num) (by norm_num)

/-! ### 4.5 Per-observation diffusivity (Waves.py lines 393-411 and 462-477) -/

/-- Python float `%` on reals, for the wrapped angles computed by the
climate estimators. -/
noncomputable def pymodR (a n : ℝ) : ℝ := a - n * ((⌊a / n⌋ : ℤ) : ℝ)

/-- The wrapped signed angular difference `((x + 180) mod 360) - 180` over
the reals. -/
noncomputable def wrapAngleR (x : ℝ) : ℝ := pymodR (x + 180) 360 - 180

/-- Evaluation rule for `pymodR`, mirroring `pymod_eq`. -/
lemma pymodR_eq (a n r : ℝ) (k : ℤ) (hn : 0 < n) (ha : a = n * k + r)
    (h0 : 0 ≤ r) (h1 : r < n) : pymodR a n = r := by
  have hdiv : a / n = k + r / n := by rw [ha]; field_simp; ring
  have hfl : ⌊a / n⌋ = k := by
    rw [hdiv, Int.floor_eq_iff]
    constructor
    · have : 0 ≤ r / n := div_nonneg h0 hn.le
      linarith
    · have : r / n < 1 := (div_lt_one hn).mpr h1
      linarith
  rw [pymodR, hfl, ha]
  ring

/-- Evaluation rule for `wrapAngleR`. -/
lemma wrapAngleR_eq (x r : ℝ) (k : ℤ) (hx : x + 180 = 360 * k + (r + 180))
    (h0 : -180 ≤ r) (h1 : r < 180) : wrapAngleR x = r := by
  rw [wrapAngleR, pymodR_eq (x + 180) 360 (r + 180) k (by norm_num) hx
    (by linarith) (by linarith)]
  ring

/-- Per-observation diffusivity of `WaveClimateSimple` (Waves.py lines
462-477): the branch angle is `angle_diff_deg = (ShoreAngle - WaveDir + 180)
% 360 - 180`; for `angle_diff_deg <= 0` (onshore) the radian-converted
`T^(1/3)` formula applies, otherwise `mu = 0` (shadowed). -/
noncomputable def muSimpleObs (ShoreAngle WaveDir WaveHs WaveTp : ℝ) : ℝ :=
  let K2 : ℝ := 0.15
  let D : ℝ := 10
  let angleDiff := wrapAngleR (ShoreAngle - WaveDir)
  if angleDiff ≤ 0 then
    (K2 / D) * WaveTp ^ ((1 : ℝ) / 3) * WaveHs ^ ((12 : ℝ) / 5) *
      |Real.cos (angleDiff * Real.pi / 180)| ^ ((1 : ℝ) / 5) *
      ((6 / 5) * Real.sin (angleDiff * Real.pi / 180) ^ 2 -
        Real.cos (angleDiff * Real.pi / 180) ^ 2)
  else 0

/-- Per-observation diffusivity of the degree-based `WaveClimate` (Waves.py
lines 393-411): `Alpha = ((ShoreAngle - WaveDir[i]) + 180) % 360-180`;
`Alpha > 0` is shadowed (`mu = 0`); otherwise `T^(1/5)` with the
sign-preserving `cos/|cos|` factor, the degree value being passed directly
to `math.cos`/`math.sin` (no radian conversion, exactly as the source
does).  Lean's `x / 0 = 0` stands in for the `ZeroDivisionError` Python
would raise when `cos Alpha = 0`; no claim evaluates that point. -/
noncomputable def muOldObs (ShoreAngle WaveDir WaveHs WaveTp : ℝ) : ℝ :=
  let K2 : ℝ := 0.15
  let D : ℝ := 10
  let Alpha := wrapAngleR (ShoreAngle - WaveDir)
  if 0 < Alpha then 0
  else
    (K2 / D) * WaveTp ^ ((1 : ℝ) / 5) * WaveHs ^ ((12 : ℝ) / 5) *
      ((|Real.cos Alpha| ^ ((1 : ℝ) / 5) * (Real.cos Alpha / |Real.cos Alpha|)) *
        ((6 / 5) * Real.sin Alpha ^ 2 - Real.cos Alpha ^ 2))

/-- Diffusivity formula as spec 4.5 words it for the radian/`T^(1/3)`
default, as a function of the signed wave-to-shore angle (in degrees). -/
noncomputable def specMuFormulaRad (alpha H0 T : ℝ) : ℝ :=
  (0.15 / 10) * T ^ ((1 : ℝ) / 3) * H0 ^ ((12 : ℝ) / 5) *
    |Real.cos (alpha * Real.pi / 180)| ^ ((1 : ℝ) / 5) *
    ((6 / 5) * Real.sin (alpha * Real.pi / 180) ^ 2 - Real.cos (alpha * Real.pi / 180) ^ 2)

/-- Diffusivity formula of the historical degree-based variant as spec 4.5
words it: `T^(1/5)` and sign preserved via `sign(cos(alpha))·|cos(alpha)|^(1/5)`,
the trigonometric functions consuming the degree value directly as the
source does. -/
noncomputable def specMuFormulaDeg (alpha H0 T : ℝ) : ℝ :=
  (0.15 / 10) * T ^ ((1 : ℝ) / 5) * H0 ^ ((12 : ℝ) / 5) *
    ((|Real.cos alpha| ^ ((1 : ℝ) / 5) * (Real.cos alpha / |Real.cos alpha|)) *
      ((6 / 5) * Real.sin alpha ^ 2 - Real.cos alpha ^ 2))

/-! ### C2 theorems -/

/-- C2 (amended): in both climate-estimator variants the angle deciding
shadowing is the wrapped signed difference `shoreAngle - direction` (not
`direction - shoreAngle` as 4.3 defines alpha): each per-observation `mu` is
`0` exactly on the branch where that angle is positive, and otherwise equals
the respective diffusivity formula evaluated at that angle. -/
theorem C2_mu_shadowing (s d h t : ℝ) :
    (0 < wrapAngleR (s - d) → muSimpleObs s d h t = 0 ∧ muOldObs s d h t = 0) ∧
    (wrapAngleR (s - d) ≤ 0 →
      muSimpleObs s d h t = specMuFormulaRad (wrapAngleR (s - d)) h t ∧
      muOldObs s d h t = specMuFormulaDeg (wrapAngleR (s - d)) h t) := by
  constructor
  · intro hpos
    refine ⟨?_, ?_⟩
    · simp only [muSimpleObs]
      rw [if_neg (not_le.mpr hpos)]
    · simp only [muOldObs]
      rw [if_pos hpos]
  · intro hnp
    refine ⟨?_, ?_⟩
    · simp only [muSimpleObs, specMuFormulaRad]
      rw [if_pos hnp]
    · simp only [muOldObs, specMuFormulaDeg]
      rw [if_neg (not_lt.mpr hnp)]

/-- Counterexample for C2 as stated: at shore angle `0`, direction `45`,
`Hs = Tp = 1`, the claim's alpha `wrap(direction - shoreAngle) = 45` is
positive, so the claim forces `mu = 0`; the code's `WaveClimateSimple`
instead computes the onshore branch (its own angle is `-45 ≤ 0`) and
produces a strictly positive `mu`. -/
theorem C2_mu_shadowing_counterexample :
    wrapAngleR (45 - 0) = 45 ∧ (0 : ℝ) < 45 ∧ 0 < muSimpleObs 0 45 1 1 := by
  have hwrapPos : wrapAngleR ((45 : ℝ) - 0) = 45 :=
    wrapAngleR_eq _ 45 0 (by norm_num) (by norm_num) (by norm_num)
  have hwrapNeg : wrapAngleR ((0 : ℝ) - 45) = -45 :=
    wrapAngleR_eq _ (-45) 0 (by norm_num) (by norm_num) (by norm_num)
  refine ⟨hwrapPos, by norm_num, ?_⟩
  have harg : (-45 : ℝ) * Real.pi / 180 = -(Real.pi / 4) := by ring
  have hcos : Real.cos ((-45 : ℝ) * Real.pi / 180) = Real.sqrt 2 / 2 := by
    rw [harg, Real.cos_neg, Real.cos_pi_div_four]
  have hsin : Real.sin ((-45 : ℝ) * Real.pi / 180) = -(Real.sqrt 2 / 2) := by
    rw [harg, Real.sin_neg, Real.sin_pi_div_four]
  have hs2 : Real.sqrt 2 ^ 2 = 2 := Real.sq_sqrt (by norm_num)
  have hsqrtpos : (0 : ℝ) < Real.sqrt 2 / 2 := by positivity
  simp only [muSimpleObs]
  rw [hwrapNeg, if_pos (by norm_num : (-45 : ℝ) ≤ 0), hcos, hsin]
  rw [Real.one_rpow, Real.one_rpow, abs_of_pos hsqrtpos]
  have hval : (6 / 5) * (-(Real.sqrt 2 / 2)) ^ 2 - (Real.sqrt 2 / 2) ^ 2 = 1 / 10 := by
    rw [neg_sq, div_pow, hs2]
    norm_num
  rw [hval]
  have hrp : (0 : ℝ) < (Real.sqrt 2 / 2) ^ ((1 : ℝ) / 5) :=
    Real.rpow_pos_of_pos hsqrtpos _
  positivity

/-- Witness for C2 at concrete angles on both branches. -/
theorem C2_mu_shadowing_witness :
    muSimpleObs 45 0 1 1 = 0 ∧
    muOldObs 0 45 1 1 = specMuFormulaDeg (wrapAngleR (0 - 45)) 1 1 := by
  have hpos : 0 < wrapAngleR ((45 : ℝ) - 0) := by
    rw [wrapAngleR_eq _ 45 0 (by norm_num) (by norm_num) (by norm_num)]
    norm_num
  have hneg : wrapAngleR ((0 : ℝ) - 45) ≤ 0 := by
    rw [wrapAngleR_eq _ (-45) 0 (by norm_num) (by norm_num) (by norm_num)]
    norm_num
  exact ⟨((C2_mu_shadowing 45 0 1 1).1 hpos).1, ((C2_mu_shadowing 0 45 1 1).2 hneg).2⟩

/-! ### 4.4 SampleWaves (Waves.py lines 180-353)

The sampler is embedded per grid cell: `wt`, `hs`, `dir`, `tp` are the wave
timestamp/height/direction/period series of the grid cell nearest a
transect (the nearest-cell lookup, shore angle, climate indicators and
progress printing of lines 226-257 do not feed the nine per-date wave
statistics and are embedded separately).  Times are rational hours since an
arbitrary epoch, so `timedelta(days=90)` is `2160` and
`timedelta(hours=1)` is `1`.  Failures that make Python raise
(`min()` of an empty sequence, indexing errors, use of a never-assigned
variable) are `Except.error ()`; NaN values are `none`. -/

instance : Std.Antisymm ((· : ℚ) ≤ ·) := ⟨fun h h2 => le_antisymm h h2⟩

/-- Python's `min(item for item in WaveTime if item > c)`: the minimum of
the filtered list, `none` when the filter is empty (where Python raises
`ValueError`). -/
def pyMinGt (wt : List ℚ) (c : ℚ) : Option ℚ :=
  (wt.filter (fun x => decide (c < x))).min?

/-- Turn an optional value into `Except`, modelling a Python expression
that raises when the value is absent. -/
def req {α : Type} : Option α → Except Unit α
  | some a => .ok a
  | none => .error ()

@[simp] lemma req_some {α : Type} (a : α) : req (some a) = .ok a := rfl

@[simp] lemma req_none {α : Type} : req (none : Option α) = .error () := rfl

@[simp] lemma exceptBind_ok {α β : Type} (a : α) (f : α → Except Unit β) :
    (Except.ok a >>= f) = f a := rfl

@[simp] lemma exceptBind_error {ε α β : Type} (e : ε) (f : α → Except ε β) :
    ((Except.error e : Except ε α) >>= f) = .error e := rfl

/-- Body of the instantaneous-interpolation loop for one wave property
(Waves.py lines 287-301): `Time_1`/`Wave_1` come from the first timestamp
after `sat - TimeStep`, `Time_2`/`Wave_2` from the first after `sat`
(`Toolbox.find`, modelled from the spec as the index of the value in the
ordered timestamp list, is `List.indexOf`), and the result is
`Wave_2 - (Wave_2 - Wave_1) * ((Time_2 - sat) / TimeStep)`. -/
def interpProp (wt prop : List ℚ) (timeStep sat : ℚ) : Except Unit ℚ := do
  let t1v ← req (pyMinGt wt (sat - timeStep))
  let t2v ← req (pyMinGt wt sat)
  let w1 ← req (prop.get? (wt.indexOf t1v))
  let w2 ← req (prop.get? (wt.indexOf t2v))
  .ok (w2 - (w2 - w1) * ((t2v - sat) / timeStep))

/-- One full iteration of the instantaneous loop for one property
(Waves.py lines 283-301), including the out-of-window check
`WaveTime[-1] < DateTimeSat` that yields NaN (`none`). -/
def instantValue (wt prop : List ℚ) (timeStep sat : ℚ) : Except Unit (Option ℚ) := do
  let lastv ← req wt.getLast?
  if lastv < sat then .ok none
  else do
    let v ← interpProp wt prop timeStep sat
    .ok (some v)

/-- The three-branch window-start search of Waves.py lines 310-317: the
90-day offset (2160 h), then 90 days + 1 h, then 90 days - 1 h; `none`
when no branch matches (the source then assigns nothing). -/
def prev3Lookup (wt : List ℚ) (t1v : ℚ) : Option ℕ :=
  if t1v - 2160 ∈ wt then some (wt.indexOf (t1v - 2160))
  else if t1v - 2161 ∈ wt then some (wt.indexOf (t1v - 2161))
  else if t1v - 2159 ∈ wt then some (wt.indexOf (t1v - 2159))
  else none

/-- Effect of lines 310-317 on the Python variable `Prev3Month`: assigned
when a branch matches, otherwise it silently keeps whatever binding it had
(`none` = still unbound, `some j` = stale value from an earlier
iteration). -/
def prev3Step (wt : List ℚ) (t1v : ℚ) (state : Option ℕ) : Option ℕ :=
  match prev3Lookup wt t1v with
  | some j => some j
  | none => state

/-- NumPy's `np.mean` over a list: NaN (`none`) on the empty list. -/
def npMean (l : List ℚ) : Option ℚ :=
  if l.isEmpty then none else some (l.sum / (l.length : ℚ))

/-- Python list slice `l[a:b]` for nonnegative bounds. -/
def pySlice (l : List ℚ) (a b : ℕ) : List ℚ := (l.take b).drop a

/-- Modelled from the spec: `Toolbox.CircMean`, `Toolbox.CircStd` (circular
mean/standard deviation over angular data, spec 6) live in the sibling
Toolbox library outside this file, and `np.std` returns a square root that
is irrational in general; all three are abstract numeric kernels here — no
claim depends on their values. -/
structure StatKernels where
  circMean : List ℚ → ℚ
  circStd : List ℚ → ℚ
  arithStd : List ℚ → ℚ

/-- The nine per-date statistics appended for one acquisition date
(per-date NaN is `none`). -/
structure DateStats where
  instHs : Option ℚ
  instDir : Option ℚ
  instTp : Option ℚ
  normHs : Option ℚ
  normDir : Option ℚ
  normTp : Option ℚ
  stdHs : Option ℚ
  stdDir : Option ℚ
  stdTp : Option ℚ

/-- One iteration of the per-date loop (Waves.py lines 277-338): the
out-of-window guard, the three instantaneous interpolations (lines
281-301), the `Prev3Month` update and seasonal means over
`WaveProp[Prev3Month : WaveTime.index(Time_1)]` (lines 303-324;
`np.mean` for heights/periods, the circular kernel for directions), and
the seasonal standard deviations over the same window (lines 326-338).
`state` is the incoming binding of `Prev3Month`; `req state'` raises
(`NameError` in Python) when the window start was never assigned. -/
def dateStep (kern : StatKernels) (wt hs dir tp : List ℚ) (timeStep : ℚ)
    (state : Option ℕ) (sat : ℚ) : Except Unit (DateStats × Option ℕ) := do
  let lastv ← req wt.getLast?
  if lastv < sat then
    .ok (⟨none, none, none, none, none, none, none, none, none⟩, state)
  else do
    let instH ← interpProp wt hs timeStep sat
    let instD ← interpProp wt dir timeStep sat
    let instP ← interpProp wt tp timeStep sat
    let t1v ← req (pyMinGt wt (sat - timeStep))
    let i1 := wt.indexOf t1v
    let state' := prev3Step wt t1v state
    let j ← req state'
    .ok (⟨some instH, some instD, some instP,
      npMean (pySlice hs j i1), some (kern.circMean (pySlice dir j i1)),
      npMean (pySlice tp j i1),
      some (kern.arithStd (pySlice hs j i1)), some (kern.circStd (pySlice dir j i1)),
      some (kern.arithStd (pySlice tp j i1))⟩, state')

/-- The per-transect date loop (Waves.py line 277), threading the Python
binding of `Prev3Month` from date to date. -/
def datesFold (kern : StatKernels) (wt hs dir tp : List ℚ) (timeStep : ℚ) :
    List ℚ → Option ℕ → Except Unit (List DateStats × Option ℕ)
  | [], state => .ok ([], state)
  | sat :: rest, state => do
      let (stats, state') ← dateStep kern wt hs dir tp timeStep state sat
      let (restStats, state'') ← datesFold kern wt hs dir tp timeStep rest state'
      .ok (stats :: restStats, state'')

/-- The transect fields consumed by the sampler: the recorded
shoreline/vegetation-edge intersection list (`TransectInterGDF['interpnt']`,
only its emptiness matters) and the per-date satellite timestamps. -/
structure TransectRec where
  interpnt : List ℚ
  dates : List ℚ

/-- The nine per-transect output columns; the outer `none` is the scalar
NaN assigned to the whole transect when no intersection is recorded
(Waves.py lines 261-262). -/
structure TransectWave where
  waveHs : Option (List (Option ℚ))
  waveDir : Option (List (Option ℚ))
  waveTp : Option (List (Option ℚ))
  normWaveHs : Option (List (Option ℚ))
  normWaveDir : Option (List (Option ℚ))
  normWaveTp : Option (List (Option ℚ))
  stDevWaveHs : Option (List (Option ℚ))
  stDevWaveDir : Option (List (Option ℚ))
  stDevWaveTp : Option (List (Option ℚ))

/-- The all-missing per-transect result: `(np.nan for i in range(9))`
(Waves.py line 262). -/
def emptyTransectWave : TransectWave :=
  ⟨none, none, none, none, none, none, none, none, none⟩

/-- One iteration of the transect loop (Waves.py lines 259-351): an empty
intersection list short-circuits to the all-missing result, otherwise the
per-date statistics are computed and collected columnwise. -/
def SampleWavesTransect (kern : StatKernels) (wt hs dir tp : List ℚ)
    (timeStep : ℚ) (tr : TransectRec) (state : Option ℕ) :
    Except Unit (TransectWave × Option ℕ) :=
  if tr.interpnt = [] then .ok (emptyTransectWave, state)
  else do
    let (stats, state') ← datesFold kern wt hs dir tp timeStep tr.dates state
    .ok (⟨some (stats.map (·.instHs)), some (stats.map (·.instDir)),
      some (stats.map (·.instTp)), some (stats.map (·.normHs)),
      some (stats.map (·.normDir)), some (stats.map (·.normTp)),
      some (stats.map (·.stdHs)), some (stats.map (·.stdDir)),
      some (stats.map (·.stdTp))⟩, state')

/-- The transect loop of `SampleWaves` (Waves.py line 226): sequential,
threading the `Prev3Month` binding across transects as Python's function
scope does. -/
def SampleWavesLoop (kern : StatKernels) (wt hs dir tp : List ℚ) (timeStep : ℚ) :
    List TransectRec → Option ℕ → Except Unit (List TransectWave)
  | [], _ => .ok []
  | tr :: rest, state => do
      let (w, state') ← SampleWavesTransect kern wt hs dir tp timeStep tr state
      let ws ← SampleWavesLoop kern wt hs dir tp timeStep rest state'
      .ok (w :: ws)

/-- Entry point of the sampler for one grid cell (Waves.py lines 204-353):
`TimeStep` is derived once from the difference of the first two wave
timestamps (line 207; raising when fewer than two exist). -/
def SampleWaves (kern : StatKernels) (wt hs dir tp : List ℚ)
    (trs : List TransectRec) : Except Unit (List TransectWave) := do
  let t0 ← req (wt.get? 0)
  let t1 ← req (wt.get? 1)
  SampleWavesLoop kern wt hs dir tp (t1 - t0) trs none

/-- Evaluation rule for `pyMinGt`: `x` is returned when it belongs to the
list, passes the filter, and bounds every passing element from below. -/
lemma pyMinGt_eq_some (wt : List ℚ) (c x : ℚ) (hmem : x ∈ wt) (hx : c < x)
    (hmin : ∀ b ∈ wt, c < b → x ≤ b) : pyMinGt wt c = some x := by
  rw [pyMinGt, List.min?_eq_some_iff le_refl min_choice (fun a b c => le_min_iff)]
  constructor
  · rw [List.mem_filter]
    exact ⟨hmem, by simpa using hx⟩
  · intro b hb
    rw [List.mem_filter] at hb
    exact hmin b hb.1 (by simpa using hb.2)

/-! ### C7 theorem -/

/-- C7: on a uniformly spaced wave time axis `t_i = t0 + i * step` with the
acquisition time strictly between `t_k` and `t_(k+1)`, the instantaneous
value of `SampleWaves` equals
`laterValue - (laterValue - earlierValue) * (timeToLater / stepDuration)`,
with `earlierValue = prop[k]`, `laterValue = prop[k+1]` and
`timeToLater = t_(k+1) - sat` (`step` is exactly the `TimeStep` the sampler
derives from the first two timestamps). -/
theorem C7_instant_interpolation (n k : ℕ) (t0 step sat : ℚ) (prop : List ℚ)
    (hstep : 0 < step) (hk : k + 1 < n) (hlen : prop.length = n)
    (hlo : t0 + (k : ℚ) * step < sat) (hhi : sat < t0 + ((k + 1 : ℕ) : ℚ) * step) :
    instantValue ((List.range n).map (fun i : ℕ => t0 + i * step)) prop step sat =
      .ok (some (prop.getD (k + 1) 0 -
        (prop.getD (k + 1) 0 - prop.getD k 0) *
          ((t0 + ((k + 1 : ℕ) : ℚ) * step - sat) / step))) := by
  have hcast : ∀ i j : ℕ, i ≤ j → (i : ℚ) * step ≤ (j : ℚ) * step := fun i j hij =>
    mul_le_mul_of_nonneg_right (by exact_mod_cast hij) hstep.le
  have hinj : Function.Injective (fun i : ℕ => t0 + i * step) := by
    intro i j hij
    simp only at hij
    have h1 : (i : ℚ) * step = (j : ℚ) * step := by linarith
    have h2 : (i : ℚ) = (j : ℚ) := mul_right_cancel₀ hstep.ne' h1
    exact_mod_cast h2
  have hnodup : ((List.range n).map (fun i : ℕ => t0 + i * step)).Nodup :=
    (List.nodup_range n).map hinj
  have hlength : ((List.range n).map (fun i : ℕ => t0 + i * step)).length = n := by simp
  have hget : ∀ i, i < n →
      ∀ (h2 : i < ((List.range n).map (fun i : ℕ => t0 + i * step)).length),
      ((List.range n).map (fun i : ℕ => t0 + i * step))[i] = t0 + (i : ℚ) * step := by
    intro i h h2
    simp
  have hmem : ∀ i, i < n →
      (t0 + (i : ℚ) * step) ∈ (List.range n).map (fun i : ℕ => t0 + i * step) :=
    fun i h => List.mem_map.mpr ⟨i, List.mem_range.mpr h, rfl⟩
  have hexp : ((k + 1 : ℕ) : ℚ) * step = (k : ℚ) * step + step := by push_cast; ring
  have hlast : ((List.range n).map (fun i : ℕ => t0 + i * step)).getLast? =
      some (t0 + ((n - 1 : ℕ) : ℚ) * step) := by
    rw [List.getLast?_eq_getElem?]
    rw [List.getElem?_eq_getElem
      (by simp only [List.length_map, List.length_range]; omega)]
    simp
  have hnotlt : ¬ (t0 + ((n - 1 : ℕ) : ℚ) * step < sat) := by
    have h1 : ((k + 1 : ℕ) : ℚ) * step ≤ ((n - 1 : ℕ) : ℚ) * step :=
      hcast (k + 1) (n - 1) (by omega)
    push_neg
    linarith
  have ht1 : pyMinGt ((List.range n).map (fun i : ℕ => t0 + i * step)) (sat - step) =
      some (t0 + (k : ℚ) * step) := by
    apply pyMinGt_eq_some
    · exact hmem k (by omega)
    · linarith
    · intro b hb hgt
      obtain ⟨i, hi, rfl⟩ := List.mem_map.mp hb
      rcases le_or_lt k i with hki | hik
      · exact add_le_add_left (hcast k i hki) t0
      · exfalso
        have h1 : ((i + 1 : ℕ) : ℚ) * step ≤ (k : ℚ) * step := hcast (i + 1) k hik
        have h2 : ((i + 1 : ℕ) : ℚ) * step = (i : ℚ) * step + step := by push_cast; ring
        linarith
  have ht2 : pyMinGt ((List.range n).map (fun i : ℕ => t0 + i * step)) sat =
      some (t0 + ((k + 1 : ℕ) : ℚ) * step) := by
    apply pyMinGt_eq_some
    · exact hmem (k + 1) hk
    · exact hhi
    · intro b hb hgt
      obtain ⟨i, hi, rfl⟩ := List.mem_map.mp hb
      rcases le_or_lt (k + 1) i with hki | hik
      · exact add_le_add_left (hcast (k + 1) i hki) t0
      · exfalso
        have h1 : (i : ℚ) * step ≤ (k : ℚ) * step := hcast i k (by omega)
        linarith
  have hidx1 : ((List.range n).map (fun i : ℕ => t0 + i * step)).indexOf
      (t0 + (k : ℚ) * step) = k := by
    rw [← hget k (by omega) (by simpa [hlength] using (by omega : k < n))]
    exact List.indexOf_getElem hnodup k (by simpa [hlength] using (by omega : k < n))
  have hidx2 : ((List.range n).map (fun i : ℕ => t0 + i * step)).indexOf
      (t0 + ((k + 1 : ℕ) : ℚ) * step) = k + 1 := by
    rw [← hget (k + 1) hk (by simpa [hlength] using hk)]
    exact List.indexOf_getElem hnodup (k + 1) (by simpa [hlength] using hk)
  have hget1 : prop.get? k = some (prop.getD k 0) := by
    rw [List.get?_eq_getElem?, List.getD_eq_getElem?_getD,
      List.getElem?_eq_getElem (show k < prop.length by rw [hlen]; omega)]
    rfl
  have hget2 : prop.get? (k + 1) = some (prop.getD (k + 1) 0) := by
    rw [List.get?_eq_getElem?, List.getD_eq_getElem?_getD,
      List.getElem?_eq_getElem (show k + 1 < prop.length by rw [hlen]; omega)]
    rfl
  simp only [instantValue, hlast, req_some, exceptBind_ok]
  rw [if_neg hnotlt]
  simp only [interpProp, ht1, ht2, req_some, exceptBind_ok, hidx1, hidx2, hget1, hget2]

/-- Witness for C7: hourly timestamps at `0` and `1` carrying values `1`
and `2`; a query 15 minutes (`1/4` hour) after the earlier timestamp
interpolates to `1.25`. -/
theorem C7_instant_interpolation_witness :
    instantValue ((List.range 2).map (fun i : ℕ => (0 : ℚ) + i * 1)) [1, 2] 1 (1 / 4) =
      .ok (some (5 / 4)) := by
  have h := C7_instant_interpolation 2 0 0 1 (1 / 4) [1, 2] (by norm_num) (by norm_num)
    (by simp) (by norm_num) (by norm_num)
  rw [h]
  norm_num

/-! ### C8 theorem -/

/-- C8: a transect with an empty intersection list yields the all-missing
result: all nine per-transect wave statistics are the missing marker, the
per-transect step returns normally (no exception), and the transect loop
continues with the remaining transects, merely prepending the all-missing
record. -/
theorem C8_missing_transect (kern : StatKernels) (wt hs dir tp : List ℚ)
    (timeStep : ℚ) (tr : TransectRec) (state : Option ℕ) (rest : List TransectRec)
    (hempty : tr.interpnt = []) :
    SampleWavesTransect kern wt hs dir tp timeStep tr state = .ok (emptyTransectWave, state) ∧
    (emptyTransectWave.waveHs = none ∧ emptyTransectWave.waveDir = none ∧
      emptyTransectWave.waveTp = none ∧ emptyTransectWave.normWaveHs = none ∧
      emptyTransectWave.normWaveDir = none ∧ emptyTransectWave.normWaveTp = none ∧
      emptyTransectWave.stDevWaveHs = none ∧ emptyTransectWave.stDevWaveDir = none ∧
      emptyTransectWave.stDevWaveTp = none) ∧
    SampleWavesLoop kern wt hs dir tp timeStep (tr :: rest) state =
      Except.map (fun ws => emptyTransectWave :: ws)
        (SampleWavesLoop kern wt hs dir tp timeStep rest state) := by
  have hstep : SampleWavesTransect kern wt hs dir tp timeStep tr state =
      .ok (emptyTransectWave, state) := by
    rw [SampleWavesTransect, if_pos hempty]
  refine ⟨hstep, ⟨rfl, rfl, rfl, rfl, rfl, rfl, rfl, rfl, rfl⟩, ?_⟩
  simp only [SampleWavesLoop, hstep, exceptBind_ok]
  cases hrest : SampleWavesLoop kern wt hs dir tp timeStep rest state with
  | error e => rfl
  | ok ws => rfl

/-- Witness for C8 at a concrete empty-intersection transect. -/
theorem C8_missing_transect_witness :
    SampleWavesTransect ⟨fun _ => 0, fun _ => 0, fun _ => 0⟩ [0, 1] [1, 2] [90, 90] [8, 8] 1
        ⟨[], [5]⟩ none = .ok (emptyTransectWave, none) ∧
    (emptyTransectWave.waveHs = none ∧ emptyTransectWave.waveDir = none ∧
      emptyTransectWave.waveTp = none ∧ emptyTransectWave.normWaveHs = none ∧
      emptyTransectWave.normWaveDir = none ∧ emptyTransectWave.normWaveTp = none ∧
      emptyTransectWave.stDevWaveHs = none ∧ emptyTransectWave.stDevWaveDir = none ∧
      emptyTransectWave.stDevWaveTp = none) ∧
    SampleWavesLoop ⟨fun _ => 0, fun _ => 0, fun _ => 0⟩ [0, 1] [1, 2] [90, 90] [8, 8] 1
        (⟨[], [5]⟩ :: []) none =
      Except.map (fun ws => emptyTransectWave :: ws)
        (SampleWavesLoop ⟨fun _ => 0, fun _ => 0, fun _ => 0⟩ [0, 1] [1, 2] [90, 90] [8, 8]
          1 [] none) :=
  C8_missing_transect ⟨fun _ => 0, fun _ => 0, fun _ => 0⟩ [0, 1] [1, 2] [90, 90] [8, 8] 1
    ⟨[], [5]⟩ none [] rfl

/-! ### C10 theorem -/

/-- C10: when none of the three window-start offsets (`Time_1` minus 90
days, minus 90 days and 1 hour, minus 90 days plus 1 hour) occurs exactly
in the wave timestamp list, the three-branch lookup matches nothing, the
Python variable `Prev3Month` keeps whatever binding it had (stale index
reuse), and a per-date computation entered with `Prev3Month` unbound
raises (`Except.error`) instead of returning a missing marker. -/
theorem C10_seasonal_window_unassigned (kern : StatKernels) (wt hs dir tp : List ℚ)
    (timeStep sat t1v lastv : ℚ) (state : Option ℕ)
    (h1 : t1v - 2160 ∉ wt) (h2 : t1v - 2161 ∉ wt) (h3 : t1v - 2159 ∉ wt)
    (hlast : wt.getLast? = some lastv) (hin : ¬ lastv < sat)
    (ht1 : pyMinGt wt (sat - timeStep) = some t1v) :
    prev3Lookup wt t1v = none ∧
    prev3Step wt t1v state = state ∧
    dateStep kern wt hs dir tp timeStep none sat = .error () := by
  have hlook : prev3Lookup wt t1v = none := by
    rw [prev3Lookup, if_neg h1, if_neg h2, if_neg h3]
  refine ⟨hlook, by rw [prev3Step, hlook], ?_⟩
  simp only [dateStep, hlast, req_some, exceptBind_ok]
  rw [if_neg hin]
  cases hH : interpProp wt hs timeStep sat with
  | error e => rfl
  | ok vH =>
      simp only [exceptBind_ok]
      cases hD : interpProp wt dir timeStep sat with
      | error e => rfl
      | ok vD =>
          simp only [exceptBind_ok]
          cases hP : interpProp wt tp timeStep sat with
          | error e => rfl
          | ok vP =>
              simp only [exceptBind_ok, ht1, req_some]
              rw [prev3Step, hlook]
              simp

/-- Witness for C10: the two-hour series `[0, 1]` contains none of the
90-day offsets of `Time_1 = 0`, so the lookup fails, a stale binding
`some 3` is silently kept, and the per-date step entered unbound errors. -/
theorem C10_seasonal_window_unassigned_witness :
    prev3Lookup [0, 1] 0 = none ∧
    prev3Step [0, 1] 0 (some 3) = some 3 ∧
    dateStep ⟨fun _ => 0, fun _ => 0, fun _ => 0⟩ [0, 1] [1, 2] [90, 90] [8, 8] 1 none (1 / 2) =
      .error () :=
  C10_seasonal_window_unassigned ⟨fun _ => 0, fun _ => 0, fun _ => 0⟩ [0, 1] [1, 2] [90, 90]
    [8, 8] 1 (1 / 2) 0 1 (some 3)
    (by norm_num)
    (by norm_num)
    (by norm_num)
    (by rfl)
    (by norm_num)
    (pyMinGt_eq_some [0, 1] (1 / 2 - 1) 0 (by norm_num) (by norm_num)
      (by intro b hb _; fin_cases hb <;> norm_num))
